import Mathlib

/-!
Verification of the Gmail Signature Manager for Google Workspace.

The definitions below are a shallow embedding of the repository's
JavaScript source: `UserFilterService.js` (directory fetch and identity
filtering), `TemplateManager.js` (placeholder substitution), the
configuration object and its validator, and the signature synchronization
pipeline.  Strings are modelled as Lean `String`/`List Char`, JavaScript
`undefined`/`null` as `Option`, and thrown exceptions as `Except`.
-/

namespace GmailSig

/-- Identity record as produced by the Admin Directory API and consumed by
`UserFilterService._shouldIncludeUser`: primary email, organizational unit
path, and the archived/suspended flags (spec data model, §3). -/
structure Identity where
  primaryEmail : String
  orgUnitPath : String
  archived : Bool
  suspended : Bool
deriving Repr, DecidableEq

/-- Filtering-relevant part of `CONFIG.CLIENT` (src/unnamed/part_000):
the search domain, the include/exclude lists and the archived/suspended
switches, together with the other required `CLIENT` fields checked by
`validateConfig`. -/
structure ClientConfig where
  searchDomain : String
  adminEmail : String
  defaultTemplateId : String
  includedUsers : List String
  excludedUsers : List String
  excludedOUs : List String
  includeArchived : Bool
  includeSuspended : Bool
deriving Repr, DecidableEq

/-- Embedding of JavaScript `String.prototype.split` with a one-character
separator, on character lists: `"a@b@c".split("@") = ["a","b","c"]`,
`"".split("@") = [""]`. -/
def splitChar (sep : Char) : List Char → List (List Char)
  | [] => [[]]
  | c :: rest =>
    let r := splitChar sep rest
    if c = sep then [] :: r
    else
      match r with
      | [] => [[c]]
      | h :: t => (c :: h) :: t

/-- Domain part of an email as `_shouldIncludeUser` computes it:
`email.split("@")[1]`, `none` standing for JavaScript `undefined` when the
email has no `"@"`. -/
def emailDomainPart (email : String) : Option (List Char) :=
  (splitChar '@' email.data)[1]?

/-- Embedding of `UserFilterService._shouldIncludeUser`
(src/UserFilterService.js lines 58-84).  The checks are performed in the
source's order: archived, suspended, email-domain match, the
`includedUsers` short-circuit, then the `excludedUsers` and `excludedOUs`
exclusions. -/
def shouldIncludeUser (cfg : ClientConfig) (u : Identity) : Bool :=
  if !cfg.includeArchived && u.archived then false
  else if !cfg.includeSuspended && u.suspended then false
  else if emailDomainPart u.primaryEmail ≠ some cfg.searchDomain.data then false
  else if cfg.includedUsers ≠ [] then cfg.includedUsers.contains u.primaryEmail
  else if cfg.excludedUsers.contains u.primaryEmail then false
  else if cfg.excludedOUs.any (fun ou => ou.data.isPrefixOf u.orgUnitPath.data) then false
  else true

/-- Embedding of `UserFilterService._filterUsers` (src/UserFilterService.js
lines 46-56): keep the identities accepted by `_shouldIncludeUser` and
project to their primary emails, preserving input order. -/
def filterUsers (cfg : ClientConfig) (users : List Identity) : List String :=
  (users.filter (shouldIncludeUser cfg)).map (·.primaryEmail)

/-- Fallible view of `_filterUsers`.  The source body of `_filterUsers` and
`_shouldIncludeUser` contains no `throw` and, on identities that are
well-typed per the data model (all fields present strings/booleans), no
operation that can raise, so its `Except` embedding has no error branch. -/
def filterUsersE (cfg : ClientConfig) (users : List Identity) :
    Except String (List String) :=
  Except.ok (filterUsers cfg users)

/-- Numeric part of `CONFIG.API` (src/unnamed/part_000 lines 56-61). -/
structure ApiConfig where
  BATCH_SIZE : Int
  BATCH_DELAY : Int
  RETRY_ATTEMPTS : Int
  RETRY_DELAY : Int
deriving Repr, DecidableEq

/-- Shape of the global `CONFIG` object that `validateConfig` inspects. -/
structure Config where
  CLIENT : ClientConfig
  API : ApiConfig
deriving Repr, DecidableEq

/-- Presence loop of `validateConfig` (src/unnamed/part_000 lines 69-84):
for each path of the literal `required` list, in order, the looked-up value
is tested for JavaScript truthiness (`if (!value) throw`).  A missing
string field is the empty string (falsy) and a missing-or-zero numeric
field is `0` (falsy), so the check rejects exactly `""` and `0`. -/
def requiredCheck (c : Config) : Except String Unit :=
  if c.CLIENT.searchDomain = "" then Except.error "Missing required config: CLIENT.searchDomain"
  else if c.CLIENT.adminEmail = "" then Except.error "Missing required config: CLIENT.adminEmail"
  else if c.CLIENT.defaultTemplateId = "" then Except.error "Missing required config: CLIENT.defaultTemplateId"
  else if c.API.BATCH_SIZE = 0 then Except.error "Missing required config: API.BATCH_SIZE"
  else if c.API.BATCH_DELAY = 0 then Except.error "Missing required config: API.BATCH_DELAY"
  else if c.API.RETRY_ATTEMPTS = 0 then Except.error "Missing required config: API.RETRY_ATTEMPTS"
  else if c.API.RETRY_DELAY = 0 then Except.error "Missing required config: API.RETRY_DELAY"
  else Except.ok ()

/-- Range checks of `validateConfig` (src/unnamed/part_000 lines 87-94),
run after the presence loop. -/
def rangeCheck (c : Config) : Except String Unit :=
  if c.API.BATCH_SIZE < 1 then Except.error "BATCH_SIZE must be at least 1"
  else if c.API.BATCH_DELAY < 0 then Except.error "BATCH_DELAY must be non-negative"
  else if c.API.RETRY_ATTEMPTS < 0 then Except.error "RETRY_ATTEMPTS must be non-negative"
  else if c.API.RETRY_DELAY < 0 then Except.error "RETRY_DELAY must be non-negative"
  else Except.ok ()

/-- Embedding of `validateConfig` (src/unnamed/part_000 lines 68-100):
the presence loop, then the range checks, then the validated config is
returned.  The trailing `EXECUTION` defaulting only fills an absent
sub-object and is not modelled (our `Config` carries no `EXECUTION`). -/
def validateConfig (c : Config) : Except String Config :=
  match requiredCheck c with
  | Except.error e => Except.error e
  | Except.ok _ =>
    match rangeCheck c with
    | Except.error e => Except.error e
    | Except.ok _ => Except.ok c

/-- Single-quote character, the target of the font-family rewrite. -/
def squote : Char := '\''

/-- Backquote character, recognized by the replacement-string grammar. -/
def bquote : Char := '`'

theorem length_dropWhile_le (p : Char → Bool) (l : List Char) :
    (l.dropWhile p).length ≤ l.length := by
  induction l with
  | nil => simp [List.dropWhile]
  | cons c rest ih =>
    simp only [List.dropWhile]
    cases p c
    · simp
    · simp
      omega

/-- Embedding of the font-quote rewrite `value.replace(/'([^']+)'/g, '"$1"')`
in `TemplateManager.applyTemplate` (src/TemplateManager.js line 119):
scanning left to right, a single quote followed by a nonempty run of
non-quote characters and a closing single quote is rewritten to the run in
double quotes; scanning resumes after the closing quote; an unmatched
opening quote is left as is. -/
def quoteNormGo (s : List Char) : List Char :=
  match s with
  | [] => []
  | c :: rest =>
    if c = squote then
      let run := rest.takeWhile (fun d => d ≠ squote)
      let rest2 := rest.dropWhile (fun d => d ≠ squote)
      if run = [] ∨ rest2 = [] then c :: quoteNormGo rest
      else '"' :: run ++ '"' :: quoteNormGo rest2.tail
    else c :: quoteNormGo rest
termination_by s.length
decreasing_by
  · simp
  · simp only [List.length_cons]
    have h2 := length_dropWhile_le (fun d => d ≠ squote) rest
    rename_i hneg
    push_neg at hneg
    cases hh : rest.dropWhile (fun d => d ≠ squote) with
    | nil => exact absurd hh hneg.2
    | cons a tl =>
      rw [hh] at h2
      simp at h2 ⊢
      omega
  · simp

/-- String-level wrapper of `quoteNormGo`. -/
def quoteNorm (s : String) : String := ⟨quoteNormGo s.data⟩

/-- Embedding of the replacement-string interpretation of JavaScript
`String.prototype.replace` (ECMAScript GetSubstitution) for a pattern
without capture groups — the escaped placeholder regex in `applyTemplate`
has none.  A doubled dollar yields one dollar; dollar-ampersand yields the
matched text; dollar-backquote the text before the match; dollar-quote the
text after it; any other dollar is literal. -/
def getSubstitution (matched before after : List Char) : List Char → List Char
  | [] => []
  | c :: rest =>
    if c = '$' then
      match rest with
      | [] => ['$']
      | d :: rest2 =>
        if d = '$' then '$' :: getSubstitution matched before after rest2
        else if d = '&' then matched ++ getSubstitution matched before after rest2
        else if d = bquote then before ++ getSubstitution matched before after rest2
        else if d = squote then after ++ getSubstitution matched before after rest2
        else '$' :: d :: getSubstitution matched before after rest2
    else c :: getSubstitution matched before after rest

/-- Embedding of `processedTemplate.replace(regex, value)` in
`TemplateManager.applyTemplate` (src/TemplateManager.js lines 122-126),
where `regex` is the placeholder with every regex metacharacter escaped
plus the `g` flag: a left-to-right scan over the subject replacing each
non-overlapping literal occurrence of the pattern by the `getSubstitution`
interpretation of `repl`; an empty pattern matches at every position
including the end, as in JavaScript.  `before` accumulates the part of the
original subject already scanned. -/
def replaceGo (p repl before : List Char) : List Char → List Char
  | [] => if p = [] then getSubstitution p before [] repl else []
  | c :: rest =>
    if hp : p = [] then
      getSubstitution [] before (c :: rest) repl ++ c :: replaceGo p repl (before ++ [c]) rest
    else
      if p.isPrefixOf (c :: rest) then
        getSubstitution p before ((c :: rest).drop p.length) repl ++
          replaceGo p repl (before ++ p) ((c :: rest).drop p.length)
      else c :: replaceGo p repl (before ++ [c]) rest
termination_by s => s.length
decreasing_by
  · simp
  · simp only [List.length_cons, List.length_drop]
    have : 0 < p.length := List.length_pos.mpr hp
    omega

/-- Embedding of the per-value sanitation in `TemplateManager.applyTemplate`
(src/TemplateManager.js lines 116-126): the `{PrimaryFont}` quote rewrite
for a truthy value, and `value || ""` turning a missing (or empty) value
into the empty string. -/
def effValue (pv : String × Option String) : String :=
  match pv.2 with
  | none => ""
  | some s => if pv.1 = "{PrimaryFont}" ∧ s ≠ "" then quoteNorm s else s

/-- One iteration of the `Object.entries(values).forEach` loop in
`TemplateManager.applyTemplate`. -/
def applyOne (acc : String) (pv : String × Option String) : String :=
  ⟨replaceGo pv.1.data (effValue pv).data [] acc.data⟩

/-- Embedding of `TemplateManager.applyTemplate` (src/TemplateManager.js
lines 113-129): fold the placeholder/value pairs over the template in
entry order, replacing globally at each step. -/
def applyTemplate (template : String) (values : List (String × Option String)) : String :=
  values.foldl applyOne template

/-- Statement of the substitution contract in the spec's words (§4.2):
every occurrence of the placeholder is replaced, left to right and
non-overlapping, by the replacement value itself, taken literally. -/
def specReplaceAll (p v : List Char) : List Char → List Char
  | [] => []
  | c :: rest =>
    if p ≠ [] ∧ p.isPrefixOf (c :: rest) then v ++ specReplaceAll p v ((c :: rest).drop p.length)
    else c :: specReplaceAll p v rest
termination_by s => s.length
decreasing_by
  · simp only [List.length_cons, List.length_drop]
    rename_i hcond
    have : 0 < p.length := List.length_pos.mpr hcond.1
    omega
  · simp

/-- Spec-side rendering: literal global replacement of each recognized
placeholder by its sanitized value, in entry order. -/
def specApplyTemplate (template : String) (values : List (String × Option String)) : String :=
  values.foldl (fun acc pv => ⟨specReplaceAll pv.1.data (effValue pv).data acc.data⟩) template

/-- Response to the one directory request of
`UserFilterService._fetchUsers`: HTTP status code, the optional `users`
array of the parsed JSON body (`data.users || []`), and the body text used
in the thrown error message. -/
structure FetchResponse where
  code : Nat
  users : Option (List Identity)
  contentText : String
deriving Repr

/-- Request URL built by `UserFilterService._fetchUsers`
(src/UserFilterService.js line 22): the template literal with the
configured search domain interpolated and the constant `maxResults=500`
and `projection=full` query parameters. -/
def fetchUsersUrl (cfg : ClientConfig) : String :=
  "https://admin.googleapis.com/admin/directory/v1/users?domain=" ++ cfg.searchDomain ++
    "&maxResults=500&projection=full"

/-- Embedding of `UserFilterService._fetchUsers` (src/UserFilterService.js
lines 21-44) against an abstract HTTP transport `server`.  The body issues
exactly one fetch — there is no page-token loop — so the returned trace of
issued request URLs is the one-element list.  A non-200 response throws;
otherwise the result is `data.users || []`. -/
def fetchUsers (cfg : ClientConfig) (server : String → FetchResponse) :
    Except String (List Identity) × List String :=
  let url := fetchUsersUrl cfg
  let resp := server url
  (if resp.code ≠ 200 then Except.error ("Failed to fetch users: " ++ resp.contentText)
   else Except.ok (resp.users.getD []), [url])

/-- Decoding of the `maxResults` query parameter from a request URL, used
by the directory-server model: the first `&`-separated segment of the URL
that starts with the parameter name, with its decimal digits read off. -/
def parseMaxResults (url : String) : Option Nat :=
  ((splitChar '&' url.data).filterMap
    (fun seg => if "maxResults=".data.isPrefixOf seg then some (seg.drop 11) else none)).head?.map
    (fun ds => ds.foldl (fun n c => n * 10 + (c.toNat - 48)) 0)

/-- Model of the Admin Directory `users.list` endpoint for a domain whose
full user list is `allUsers`: a successful response carries the first page
of at most `maxResults` users; later pages are reachable only through a
`pageToken` follow-up request, which `_fetchUsers` never issues. -/
def directoryServer (allUsers : List Identity) : String → FetchResponse :=
  fun url =>
    { code := 200
      users := some (allUsers.take ((parseMaxResults url).getD 100))
      contentText := "" }

/-- Per-identity terminal classification of the synchronization pipeline
(spec §3, `SyncOutcome`). -/
inductive Outcome where
  | processed
  | skipped
  | failed (reason : String)
deriving Repr, DecidableEq

/-- Pipeline-level result: the tri-partitioned accumulation of per-identity
outcomes, `failed` being an email-to-reason map. -/
structure SyncOutcome where
  processed : List String
  skipped : List String
  failed : List (String × String)
deriving Repr, DecidableEq

/-- Result of one remote signature write (spec §4.4, §6): success, a
retryable transient failure, or a non-retryable permanent failure. -/
inductive WriteResult where
  | success
  | transient (msg : String)
  | permanent (msg : String)
deriving Repr, DecidableEq

/-- Modelled from the spec: the external collaborators of the signature
synchronization pipeline (§4.4, §6), whose implementation
(`SignatureService`) is not among the provided sources.  `needsUpdate`
abstracts render-read-compare change detection for an email,
`credentialOk` the per-identity write-credential acquisition, and
`writeResult` the outcome of the k-th write attempt for an email. -/
structure SyncEnv where
  needsUpdate : String → Bool
  credentialOk : String → Bool
  writeResult : String → Nat → WriteResult

/-- Modelled from the spec: the write-with-retry loop of §4.4.  Attempt
`attemptIdx` is made; success classifies `processed`, a permanent error
classifies `failed` at once, and a transient error retries while budget
remains, exhaustion classifying `failed` with the last message.  The
second component records one entry per write invocation. -/
def attemptWrite (env : SyncEnv) (email : String) : Nat → Nat → Outcome × List String
  | attemptIdx, budget =>
    match env.writeResult email attemptIdx, budget with
    | WriteResult.success, _ => (Outcome.processed, [email])
    | WriteResult.permanent m, _ => (Outcome.failed m, [email])
    | WriteResult.transient m, 0 => (Outcome.failed m, [email])
    | WriteResult.transient _, b + 1 =>
      let r := attemptWrite env email (attemptIdx + 1) b
      (r.1, email :: r.2)

/-- Modelled from the spec: the per-identity state machine of §4.4.  No
change needed classifies `skipped` with no write and no credential
acquisition; a needed change under dry run classifies `processed` without
writing; otherwise the write credential is acquired (denial classifying
`failed`) and the write is attempted with retry budget `retryAttempts`. -/
def processIdentity (env : SyncEnv) (retryAttempts : Nat) (dryRun : Bool)
    (email : String) : Outcome × List String :=
  if env.needsUpdate email = false then (Outcome.skipped, [])
  else if dryRun then (Outcome.processed, [])
  else if env.credentialOk email = false then (Outcome.failed "credential denied", [])
  else attemptWrite env email 0 retryAttempts

/-- Modelled from the spec: `SignatureSyncPipeline.run` of §4.4 and §6,
whose implementation (`SignatureService.processUsers`) is not among the
provided sources.  Each submitted identity is taken to its terminal
classification and accumulated into the partition, input order preserved
within each bucket; the second component is the concatenated trace of
write invocations.  Batch grouping and the inter-batch/inter-retry delays
of §4.4 only schedule these per-identity computations in time and are not
modelled; the run-level cancellation of §5 is likewise outside this model. -/
def runPipeline (env : SyncEnv) (retryAttempts : Nat) (dryRun : Bool) :
    List String → SyncOutcome × List String
  | [] => ({ processed := [], skipped := [], failed := [] }, [])
  | e :: rest =>
    let pr := processIdentity env retryAttempts dryRun e
    let acc := runPipeline env retryAttempts dryRun rest
    (match pr.1 with
     | Outcome.processed => { acc.1 with processed := e :: acc.1.processed }
     | Outcome.skipped => { acc.1 with skipped := e :: acc.1.skipped }
     | Outcome.failed m => { acc.1 with failed := (e, m) :: acc.1.failed },
     pr.2 ++ acc.2)


/-! Concrete fixtures used by the counterexamples and witnesses below. -/

/-- Rule set with a non-empty `includedUsers` and `includeSuspended = false`. -/
def cfgOverride : ClientConfig :=
  { searchDomain := "x.com", adminEmail := "admin@x.com", defaultTemplateId := "card"
    includedUsers := ["a@x.com"], excludedUsers := [], excludedOUs := []
    includeArchived := false, includeSuspended := false }

/-- Suspended identity whose email is listed in `cfgOverride.includedUsers`. -/
def userASusp : Identity :=
  { primaryEmail := "a@x.com", orgUnitPath := "/", archived := false, suspended := true }

/-- Unlisted, unsuspended identity of the matching domain. -/
def userB : Identity :=
  { primaryEmail := "b@x.com", orgUnitPath := "/", archived := false, suspended := false }

/-- Rule set listing the same email in `includedUsers`, `excludedUsers` and
with an `excludedOUs` prefix matching every path. -/
def cfgOverrideExcl : ClientConfig :=
  { searchDomain := "x.com", adminEmail := "admin@x.com", defaultTemplateId := "card"
    includedUsers := ["a@x.com"], excludedUsers := ["a@x.com"], excludedOUs := ["/"]
    includeArchived := false, includeSuspended := false }

/-- Active identity of the matching domain. -/
def userAOk : Identity :=
  { primaryEmail := "a@x.com", orgUnitPath := "/", archived := false, suspended := false }

/-- Rule set whose `includedUsers` lists an email of a foreign domain. -/
def cfgDomainY : ClientConfig :=
  { searchDomain := "x.com", adminEmail := "admin@x.com", defaultTemplateId := "card"
    includedUsers := ["a@y.com"], excludedUsers := [], excludedOUs := []
    includeArchived := false, includeSuspended := false }

/-- Identity whose email domain differs from `cfgDomainY.searchDomain`. -/
def userWrongDomain : Identity :=
  { primaryEmail := "a@y.com", orgUnitPath := "/", archived := false, suspended := false }

/-- Rule set with the slash-less OU exclusion entry of the spec's example
(and of the shipped default `CONFIG`). -/
def cfgOUTest : ClientConfig :=
  { searchDomain := "x.com", adminEmail := "admin@x.com", defaultTemplateId := "card"
    includedUsers := [], excludedUsers := [], excludedOUs := ["Test"]
    includeArchived := false, includeSuspended := false }

/-- Member of the `Test` organizational unit. -/
def userInterns : Identity :=
  { primaryEmail := "a@x.com", orgUnitPath := "/Test/Interns", archived := false, suspended := false }

/-- Member of the sibling `Testing` organizational unit. -/
def userTesting : Identity :=
  { primaryEmail := "b@x.com", orgUnitPath := "/Testing", archived := false, suspended := false }

/-- Rule set whose configured domain is empty. -/
def cfgEmptyDomain : ClientConfig :=
  { searchDomain := "", adminEmail := "admin@x.com", defaultTemplateId := "card"
    includedUsers := [], excludedUsers := [], excludedOUs := []
    includeArchived := false, includeSuspended := false }

/-- Full configuration whose `CLIENT.searchDomain` is empty. -/
def cfgNoDomain : Config :=
  { CLIENT := cfgEmptyDomain
    API := { BATCH_SIZE := 10, BATCH_DELAY := 1000, RETRY_ATTEMPTS := 3, RETRY_DELAY := 1000 } }

/-- Configuration that is valid except for `API.BATCH_DELAY = 0`. -/
def cfgZeroDelay : Config :=
  { CLIENT :=
      { searchDomain := "example.com", adminEmail := "admin@example.com", defaultTemplateId := "card"
        includedUsers := [], excludedUsers := [], excludedOUs := []
        includeArchived := false, includeSuspended := false }
    API := { BATCH_SIZE := 10, BATCH_DELAY := 0, RETRY_ATTEMPTS := 3, RETRY_DELAY := 1000 } }

/-- Pipeline environment in which every identity needs an update and every
write would succeed. -/
def envAllNeed : SyncEnv :=
  { needsUpdate := fun _ => true
    credentialOk := fun _ => true
    writeResult := fun _ _ => WriteResult.success }

/-- Client configuration for the directory-fetch fixtures. -/
def cfgNine : ClientConfig :=
  { searchDomain := "example.com", adminEmail := "admin@example.com", defaultTemplateId := "card"
    includedUsers := [], excludedUsers := [], excludedOUs := []
    includeArchived := false, includeSuspended := false }

/-- Numbered identity of the fixture domain. -/
def identNum (n : Nat) : Identity :=
  { primaryEmail := Nat.repr n ++ "@example.com", orgUnitPath := "/", archived := false, suspended := false }

/-- Directory with 501 users, one more than a page. -/
def manyUsers : List Identity := (List.range 501).map identNum


theorem getSubstitution_no_dollar (m b a : List Char) (repl : List Char) (h : '$' ∉ repl) :
    getSubstitution m b a repl = repl := by
  induction repl with
  | nil => rfl
  | cons c rest ih =>
    have hc : ¬ c = '$' := by
      intro hh
      exact h (hh ▸ List.mem_cons_self c rest)
    have hrest : '$' ∉ rest := fun hm => h (List.mem_cons_of_mem _ hm)
    cases rest with
    | nil => simp [getSubstitution.eq_2, getSubstitution.eq_1, hc]
    | cons d rest2 => simp [getSubstitution.eq_3, hc, ih hrest]

theorem replaceGo_eq_spec (p repl : List Char) (hp : p ≠ []) (hd : '$' ∉ repl) :
    ∀ (s before : List Char), replaceGo p repl before s = specReplaceAll p repl s := by
  have main : ∀ (n : Nat) (s before : List Char), s.length ≤ n →
      replaceGo p repl before s = specReplaceAll p repl s := by
    intro n
    induction n with
    | zero =>
      intro s before hs
      have hnil : s = [] := List.eq_nil_of_length_eq_zero (Nat.le_zero.mp hs)
      subst hnil
      simp [replaceGo.eq_1, specReplaceAll.eq_1, hp]
    | succ n ih =>
      intro s before hs
      match s with
      | [] => simp [replaceGo.eq_1, specReplaceAll.eq_1, hp]
      | c :: rest =>
        rw [replaceGo.eq_2, specReplaceAll.eq_2]
        simp only [hp, dite_false, reduceIte]
        by_cases hpre : p.isPrefixOf (c :: rest)
        · have hlen : ((c :: rest).drop p.length).length ≤ n := by
            simp only [List.length_drop, List.length_cons]
            have : 0 < p.length := List.length_pos.mpr hp
            simp only [List.length_cons] at hs
            omega
          simp [hpre, hp, getSubstitution_no_dollar _ _ _ _ hd, ih _ _ hlen]
        · have hlen : rest.length ≤ n := by
            simp only [List.length_cons] at hs
            omega
          simp [hpre, hp, ih _ _ hlen]
  intro s before
  exact main s.length s before (Nat.le_refl _)

theorem applyTemplate_eq_specApply (template : String) (values : List (String × Option String))
    (h : ∀ pv ∈ values, pv.1 ≠ "" ∧ '$' ∉ (effValue pv).data) :
    applyTemplate template values = specApplyTemplate template values := by
  induction values generalizing template with
  | nil => rfl
  | cons pv rest ih =>
    have hpv := h pv (List.mem_cons_self _ _)
    have hpd : pv.1.data ≠ [] := by
      intro hd
      exact hpv.1 (String.ext hd)
    have step : applyOne template pv = ⟨specReplaceAll pv.1.data (effValue pv).data template.data⟩ := by
      unfold applyOne
      rw [replaceGo_eq_spec _ _ hpd hpv.2]
    simp only [applyTemplate, specApplyTemplate, List.foldl_cons] at *
    rw [step]
    exact ih _ (fun q hq => h q (List.mem_cons_of_mem _ hq))


theorem splitChar_ne_nil (sep : Char) (l : List Char) : splitChar sep l ≠ [] := by
  cases l with
  | nil => simp [splitChar]
  | cons c rest =>
    simp only [splitChar]
    by_cases h : c = sep
    · simp [h]
    · simp only [h, if_false]
      cases splitChar sep rest <;> simp

theorem splitChar_append (sep : Char) (l₁ l₂ : List Char) (h : sep ∉ l₁) :
    splitChar sep (l₁ ++ l₂) = List.modifyHead (fun hd => l₁ ++ hd) (splitChar sep l₂) := by
  induction l₁ with
  | nil =>
    cases hh : splitChar sep l₂ with
    | nil => exact absurd hh (splitChar_ne_nil sep l₂)
    | cons a t => simpa using hh
  | cons c tl ih =>
    have hc : ¬ c = sep := fun hh => h (hh ▸ List.mem_cons_self c tl)
    have htl : sep ∉ tl := fun hm => h (List.mem_cons_of_mem _ hm)
    cases hh : splitChar sep l₂ with
    | nil => exact absurd hh (splitChar_ne_nil sep l₂)
    | cons a t =>
      simp only [List.cons_append, splitChar, hc, if_false, List.append_eq]
      rw [ih htl, hh]
      simp

theorem splitChar_cons_sep (sep : Char) (l : List Char) :
    splitChar sep (sep :: l) = [] :: splitChar sep l := by
  simp [splitChar]

/-- C1.  For every environment, retry budget, dry-run flag and submitted
identity list, the pipeline result is a total partition: the bucket sizes
sum to the input length, and an identity appears in some bucket exactly
when it was submitted. -/
theorem runPipeline_partition (env : SyncEnv) (retryAttempts : Nat) (dryRun : Bool)
    (identities : List String) :
    ((runPipeline env retryAttempts dryRun identities).1.processed.length +
      (runPipeline env retryAttempts dryRun identities).1.skipped.length +
      (runPipeline env retryAttempts dryRun identities).1.failed.length = identities.length)
    ∧ ∀ e : String,
        (e ∈ (runPipeline env retryAttempts dryRun identities).1.processed ∨
         e ∈ (runPipeline env retryAttempts dryRun identities).1.skipped ∨
         ∃ m, (e, m) ∈ (runPipeline env retryAttempts dryRun identities).1.failed) ↔
        e ∈ identities := by
  induction identities with
  | nil => simp [runPipeline]
  | cons a rest ih =>
    obtain ⟨ihlen, ihmem⟩ := ih
    simp only [runPipeline]
    cases h : (processIdentity env retryAttempts dryRun a).1 with
    | processed =>
      refine ⟨by simp only [List.length_cons]; omega, fun e => ?_⟩
      simp only [List.mem_cons]
      rw [← ihmem e]
      tauto
    | skipped =>
      refine ⟨by simp only [List.length_cons]; omega, fun e => ?_⟩
      simp only [List.mem_cons]
      rw [← ihmem e]
      tauto
    | failed m =>
      refine ⟨by simp only [List.length_cons]; omega, fun e => ?_⟩
      simp only [List.mem_cons, Prod.mk.injEq]
      rw [← ihmem e]
      constructor
      · rintro (hp | hs | ⟨m2, ⟨he, hm⟩ | hf⟩)
        · exact Or.inr (Or.inl hp)
        · exact Or.inr (Or.inr (Or.inl hs))
        · exact Or.inl he
        · exact Or.inr (Or.inr (Or.inr ⟨m2, hf⟩))
      · rintro (he | hp | hs | ⟨m2, hf⟩)
        · exact Or.inr (Or.inr ⟨m, Or.inl ⟨he, rfl⟩⟩)
        · exact Or.inl hp
        · exact Or.inr (Or.inl hs)
        · exact Or.inr (Or.inr ⟨m2, Or.inr hf⟩)

/-- C2 counterexample.  Under `cfgOverride`, whose `includedUsers` lists
`a@x.com` and whose `includeSuspended` is false, the suspended identity
`a@x.com` is rejected by the filter — the `includedUsers` override does not
bypass the suspended-exclusion rule, and the spec §8 example yields `[]`
rather than `["a@x.com"]`. -/
theorem includedUsers_override_cex :
    userASusp.primaryEmail ∈ cfgOverride.includedUsers
    ∧ userASusp.suspended = true ∧ cfgOverride.includeSuspended = false
    ∧ shouldIncludeUser cfgOverride userASusp = false
    ∧ filterUsers cfgOverride [userASusp, userB] = [] := by
  refine ⟨by decide, by decide, by decide, by decide, by decide⟩

/-- C2 as amended.  When `includedUsers` is non-empty, an identity that
passes the archived, suspended and domain checks — which run first — is
included exactly when its email is listed: the override bypasses the
`excludedUsers` and `excludedOUs` rules but not the three preceding
checks. -/
theorem includedUsers_override_after_prechecks (cfg : ClientConfig) (u : Identity)
    (hne : cfg.includedUsers ≠ [])
    (ha : u.archived = true → cfg.includeArchived = true)
    (hs : u.suspended = true → cfg.includeSuspended = true)
    (hd : emailDomainPart u.primaryEmail = some cfg.searchDomain.data) :
    shouldIncludeUser cfg u = cfg.includedUsers.contains u.primaryEmail := by
  unfold shouldIncludeUser
  split_ifs <;> simp_all

/-- C2 witness.  A listed active identity is included although it is also
in `excludedUsers` and its OU matches an `excludedOUs` prefix. -/
theorem includedUsers_override_after_prechecks_witness :
    cfgOverrideExcl.includedUsers ≠ []
    ∧ shouldIncludeUser cfgOverrideExcl userAOk = cfgOverrideExcl.includedUsers.contains userAOk.primaryEmail
    ∧ shouldIncludeUser cfgOverrideExcl userAOk = true := by
  refine ⟨by decide,
    includedUsers_override_after_prechecks cfgOverrideExcl userAOk (by decide)
      (by decide) (by decide) (by decide), by decide⟩

/-- C3.  An identity whose email's domain part — `email.split("@")[1]` —
differs from the configured domain is never included, whatever the other
rules, a non-empty `includedUsers` listing it included. -/
theorem domain_mismatch_excluded (cfg : ClientConfig) (u : Identity)
    (h : emailDomainPart u.primaryEmail ≠ some cfg.searchDomain.data) :
    shouldIncludeUser cfg u = false := by
  unfold shouldIncludeUser
  split_ifs <;> simp_all

/-- C3 witness.  A foreign-domain identity listed in `includedUsers` is
still excluded. -/
theorem domain_mismatch_excluded_witness :
    emailDomainPart userWrongDomain.primaryEmail ≠ some cfgDomainY.searchDomain.data
    ∧ userWrongDomain.primaryEmail ∈ cfgDomainY.includedUsers
    ∧ shouldIncludeUser cfgDomainY userWrongDomain = false :=
  ⟨by decide, by decide, domain_mismatch_excluded cfgDomainY userWrongDomain (by decide)⟩

/-- C4.  Evaluation of the filter at the claim's inputs: with
`excludedOUs = ["Test"]` — the slash-less form of the spec example and of
the shipped default `CONFIG` — the identities at `orgUnitPath`
`/Test/Interns` and `/Testing` are both INCLUDED, because
`orgUnitPath.startsWith("Test")` is false on a path that begins with `/`;
with the slash-ful entry `"/Test"` both are excluded (prefix, not
segment-exact). -/
theorem excludedOUs_Test_no_slash_includes :
    shouldIncludeUser cfgOUTest userInterns = true
    ∧ shouldIncludeUser cfgOUTest userTesting = true
    ∧ filterUsers cfgOUTest [userInterns, userTesting] = ["a@x.com", "b@x.com"]
    ∧ shouldIncludeUser { cfgOUTest with excludedOUs := ["/Test"] } userInterns = false
    ∧ shouldIncludeUser { cfgOUTest with excludedOUs := ["/Test"] } userTesting = false := by
  refine ⟨by decide, by decide, by decide, by decide, by decide⟩

/-- C5.  For every environment, retry budget and identity list, a dry run
performs zero write invocations, and every submitted identity whose change
detection finds a needed update is classified `processed`. -/
theorem dryRun_no_writes (env : SyncEnv) (retryAttempts : Nat) (identities : List String) :
    ((runPipeline env retryAttempts true identities).2 = [])
    ∧ ∀ e ∈ identities, env.needsUpdate e = true →
        e ∈ (runPipeline env retryAttempts true identities).1.processed := by
  induction identities with
  | nil => simp [runPipeline]
  | cons a rest ih =>
    obtain ⟨ihtr, ihmem⟩ := ih
    have hpr : processIdentity env retryAttempts true a =
        (if env.needsUpdate a = false then (Outcome.skipped, ([] : List String))
         else (Outcome.processed, [])) := by
      unfold processIdentity
      by_cases hn : env.needsUpdate a = false <;> simp [hn]
    constructor
    · simp only [runPipeline, hpr]
      by_cases hn : env.needsUpdate a = false <;> simp [hn, ihtr]
    · intro e he hu
      simp only [runPipeline, hpr]
      rcases List.mem_cons.mp he with rfl | hmem
      · simp [hu]
      · by_cases hn : env.needsUpdate a = false <;> simp [hn]
        · exact ihmem e hmem hu
        · exact Or.inr (ihmem e hmem hu)

/-- C5 witness.  With one identity that needs an update, the dry run
records no write and classifies it `processed`. -/
theorem dryRun_no_writes_witness :
    (runPipeline envAllNeed 3 true ["a@x.com"]).2 = []
    ∧ "a@x.com" ∈ (runPipeline envAllNeed 3 true ["a@x.com"]).1.processed :=
  ⟨(dryRun_no_writes envAllNeed 3 ["a@x.com"]).1,
   (dryRun_no_writes envAllNeed 3 ["a@x.com"]).2 "a@x.com" (List.mem_cons_self _ _) rfl⟩

/-- C6 counterexample.  The replacement is not always the literal value:
with value `$&`, JavaScript `replace` substitutes the matched text, so the
rendered output is the placeholder itself and not the value — whereas the
claim's literal global replacement would produce the value. -/
theorem applyTemplate_dollar_cex :
    applyTemplate "{A}" [("{A}", some "$&")] = "{A}"
    ∧ specApplyTemplate "{A}" [("{A}", some "$&")] = "$&"
    ∧ ("{A}" : String) ≠ "$&" := by
  refine ⟨?_, ?_, by decide⟩
  · simp [applyTemplate, applyOne, effValue, replaceGo.eq_def, getSubstitution,
      List.isPrefixOf, squote, bquote]
  · simp only [specApplyTemplate, List.foldl_cons, List.foldl_nil]
    rw [show effValue ("{A}", some "$&") = "$&" from rfl]
    simp [specReplaceAll.eq_def, List.isPrefixOf]

/-- C6 as amended.  For recognized placeholders that are non-empty tokens
and whose sanitized values contain no dollar character, rendering equals
literal global replacement of every occurrence of each placeholder by its
value, in entry order; a recognized placeholder with a missing value has
each occurrence replaced by the empty string, never left as the token. -/
theorem applyTemplate_literal_global (template : String) (values : List (String × Option String))
    (h : ∀ pv ∈ values, pv.1 ≠ "" ∧ '$' ∉ (effValue pv).data) :
    applyTemplate template values = specApplyTemplate template values
    ∧ ∀ p : String, effValue (p, none) = "" :=
  ⟨applyTemplate_eq_specApply template values h, fun p => rfl⟩

/-- C6 witness.  A two-placeholder context, one value missing, renders to
literal global replacement with the missing value as empty string. -/
theorem applyTemplate_literal_global_witness :
    (∀ pv ∈ [("{Name}", some "Bob"), ("{X}", (none : Option String))],
      pv.1 ≠ "" ∧ '$' ∉ (effValue pv).data)
    ∧ applyTemplate "Hi {Name}, {Name}! {X}" [("{Name}", some "Bob"), ("{X}", none)] =
        specApplyTemplate "Hi {Name}, {Name}! {X}" [("{Name}", some "Bob"), ("{X}", none)]
    ∧ applyTemplate "Hi {Name}, {Name}! {X}" [("{Name}", some "Bob"), ("{X}", none)] = "Hi Bob, Bob! " := by
  have hh : ∀ pv ∈ [("{Name}", some "Bob"), ("{X}", (none : Option String))],
      pv.1 ≠ "" ∧ '$' ∉ (effValue pv).data := by
    intro pv hpv
    rcases List.mem_cons.mp hpv with rfl | hpv2
    · exact ⟨by decide, by decide⟩
    · rcases List.mem_cons.mp hpv2 with rfl | h3
      · exact ⟨by decide, by decide⟩
      · cases h3
  refine ⟨hh, (applyTemplate_literal_global _ _ hh).1, ?_⟩
  simp [applyTemplate, applyOne, effValue, replaceGo.eq_def, getSubstitution,
    List.isPrefixOf, squote, bquote]

/-- C7.  For every template, rendering with the single-quoted font value
`'Segoe UI', Arial` is byte-identical to rendering with its double-quoted
equivalent: the `{PrimaryFont}` substitution rewrites single-quoted family
names to double-quoted form first. -/
theorem primaryFont_quote_invariance (t : String) :
    applyTemplate t [("{PrimaryFont}", some "'Segoe UI', Arial")] =
    applyTemplate t [("{PrimaryFont}", some "\"Segoe UI\", Arial")] := by
  have h1 : effValue ("{PrimaryFont}", some "'Segoe UI', Arial") = "\"Segoe UI\", Arial" := by
    simp [effValue, quoteNorm, quoteNormGo, squote, List.takeWhile, List.dropWhile]
  have h2 : effValue ("{PrimaryFont}", some "\"Segoe UI\", Arial") = "\"Segoe UI\", Arial" := by
    simp [effValue, quoteNorm, quoteNormGo, squote, List.takeWhile, List.dropWhile]
  simp only [applyTemplate, List.foldl_cons, List.foldl_nil, applyOne, h1, h2]

/-- C8 counterexample.  Filtering with an empty configured domain returns
normally — the filter itself has no failure path at all, so it does not
fail with an `InvalidRuleError` (no such error exists in the code). -/
theorem filter_empty_domain_no_throw_cex :
    filterUsersE cfgEmptyDomain [userAOk] = Except.ok []
    ∧ ∀ users : List Identity,
        filterUsersE cfgEmptyDomain users = Except.ok (filterUsers cfgEmptyDomain users) :=
  ⟨by rfl, fun users => rfl⟩

/-- C8 as amended.  The filter never throws for any rule set and identity
list; the empty-domain precondition is instead enforced upfront by
`validateConfig`, which rejects a configuration whose `CLIENT.searchDomain`
is empty with `Missing required config: CLIENT.searchDomain` before any
identity is fetched or examined (though `validateConfig` also rejects
configurations for other missing fields). -/
theorem filter_total_domain_checked_upfront :
    (∀ (cfg : ClientConfig) (users : List Identity),
      filterUsersE cfg users = Except.ok (filterUsers cfg users))
    ∧ ∀ c : Config, c.CLIENT.searchDomain = "" →
        validateConfig c = Except.error "Missing required config: CLIENT.searchDomain" := by
  refine ⟨fun cfg users => rfl, fun c hc => ?_⟩
  unfold validateConfig requiredCheck
  simp [hc]

/-- C8 witness.  The empty-domain configuration is rejected by
`validateConfig` with the domain message, and filtering returns normally. -/
theorem filter_total_domain_checked_upfront_witness :
    validateConfig cfgNoDomain = Except.error "Missing required config: CLIENT.searchDomain"
    ∧ filterUsersE cfgEmptyDomain [userAOk] = Except.ok (filterUsers cfgEmptyDomain [userAOk]) :=
  ⟨filter_total_domain_checked_upfront.2 cfgNoDomain rfl,
   filter_total_domain_checked_upfront.1 cfgEmptyDomain [userAOk]⟩

/-- C9.  The directory fetch issues exactly one request, that request's
`maxResults` parameter is 500, and against a paged directory the result is
exactly the first 500 users — users beyond the first page are never
considered. -/
theorem fetchUsers_single_page (cfg : ClientConfig) (allUsers : List Identity)
    (hdom : '&' ∉ cfg.searchDomain.data) :
    (fetchUsers cfg (directoryServer allUsers)).2 = [fetchUsersUrl cfg]
    ∧ parseMaxResults (fetchUsersUrl cfg) = some 500
    ∧ (fetchUsers cfg (directoryServer allUsers)).1 = Except.ok (allUsers.take 500) := by
  have hurl : (fetchUsersUrl cfg).data =
      ("https://admin.googleapis.com/admin/directory/v1/users?domain=".data ++ cfg.searchDomain.data) ++
      ('&' :: ("maxResults=500".data ++ '&' :: "projection=full".data)) := by
    simp [fetchUsersUrl, String.data_append]
  have hpre : '&' ∉ "https://admin.googleapis.com/admin/directory/v1/users?domain=".data ++ cfg.searchDomain.data := by
    intro hm
    rcases List.mem_append.mp hm with h1 | h2
    · exact absurd h1 (by decide)
    · exact hdom h2
  have hsplit : splitChar '&' (fetchUsersUrl cfg).data =
      ("https://admin.googleapis.com/admin/directory/v1/users?domain=".data ++ cfg.searchDomain.data) ::
      "maxResults=500".data :: ["projection=full".data] := by
    rw [hurl, splitChar_append '&' _ _ hpre, splitChar_cons_sep,
      splitChar_append '&' _ _ (by decide), splitChar_cons_sep]
    simp
    decide
  have hparse : parseMaxResults (fetchUsersUrl cfg) = some 500 := by
    unfold parseMaxResults
    rw [hsplit]
    simp only [List.filterMap_cons]
    have h1 : ("maxResults=".data.isPrefixOf
        ("https://admin.googleapis.com/admin/directory/v1/users?domain=".data ++ cfg.searchDomain.data)) = false := by
      have hm : "maxResults=".data = 'm' :: "axResults=".data := rfl
      rw [hm]
      have hht : "https://admin.googleapis.com/admin/directory/v1/users?domain=".data =
        'h' :: "ttps://admin.googleapis.com/admin/directory/v1/users?domain=".data := rfl
      rw [hht]
      simp [List.isPrefixOf]
    simp only [h1, if_false]
    norm_num
    decide
  refine ⟨rfl, hparse, ?_⟩
  simp [fetchUsers, directoryServer, hparse]

/-- C9 witness.  A 501-user directory yields one request with
`maxResults=500` and exactly the first 500 users. -/
theorem fetchUsers_single_page_witness :
    ('&' ∉ cfgNine.searchDomain.data)
    ∧ (fetchUsers cfgNine (directoryServer manyUsers)).2 = [fetchUsersUrl cfgNine]
    ∧ parseMaxResults (fetchUsersUrl cfgNine) = some 500
    ∧ (fetchUsers cfgNine (directoryServer manyUsers)).1 = Except.ok (manyUsers.take 500) :=
  ⟨by decide,
   (fetchUsers_single_page cfgNine manyUsers (by decide)).1,
   (fetchUsers_single_page cfgNine manyUsers (by decide)).2.1,
   (fetchUsers_single_page cfgNine manyUsers (by decide)).2.2⟩

/-- C10.  For each of the four required numeric fields, a zero value makes
`validateConfig` fail with `Missing required config: <path>` — zero is
rejected as missing by the truthiness presence check — although the
subsequent range checks accept `0` for `BATCH_DELAY`, `RETRY_ATTEMPTS` and
`RETRY_DELAY` (they require only non-negativity; only `BATCH_SIZE` needs
at least 1). -/
theorem validateConfig_zero_is_missing :
    (∀ c : Config, c.CLIENT.searchDomain ≠ "" → c.CLIENT.adminEmail ≠ "" →
      c.CLIENT.defaultTemplateId ≠ "" → c.API.BATCH_SIZE = 0 →
      validateConfig c = Except.error "Missing required config: API.BATCH_SIZE")
    ∧ (∀ c : Config, c.CLIENT.searchDomain ≠ "" → c.CLIENT.adminEmail ≠ "" →
      c.CLIENT.defaultTemplateId ≠ "" → c.API.BATCH_SIZE ≠ 0 → c.API.BATCH_DELAY = 0 →
      validateConfig c = Except.error "Missing required config: API.BATCH_DELAY")
    ∧ (∀ c : Config, c.CLIENT.searchDomain ≠ "" → c.CLIENT.adminEmail ≠ "" →
      c.CLIENT.defaultTemplateId ≠ "" → c.API.BATCH_SIZE ≠ 0 → c.API.BATCH_DELAY ≠ 0 →
      c.API.RETRY_ATTEMPTS = 0 →
      validateConfig c = Except.error "Missing required config: API.RETRY_ATTEMPTS")
    ∧ (∀ c : Config, c.CLIENT.searchDomain ≠ "" → c.CLIENT.adminEmail ≠ "" →
      c.CLIENT.defaultTemplateId ≠ "" → c.API.BATCH_SIZE ≠ 0 → c.API.BATCH_DELAY ≠ 0 →
      c.API.RETRY_ATTEMPTS ≠ 0 → c.API.RETRY_DELAY = 0 →
      validateConfig c = Except.error "Missing required config: API.RETRY_DELAY")
    ∧ (∀ c : Config, 1 ≤ c.API.BATCH_SIZE → 0 ≤ c.API.BATCH_DELAY →
      0 ≤ c.API.RETRY_ATTEMPTS → 0 ≤ c.API.RETRY_DELAY → rangeCheck c = Except.ok ()) := by
  refine ⟨?_, ?_, ?_, ?_, ?_⟩ <;> intro c h1 h2 h3 h4 <;>
    first
    | (intro h5 h6
       unfold validateConfig requiredCheck
       split_ifs <;> simp_all)
    | (intro h5
       unfold validateConfig requiredCheck
       split_ifs <;> simp_all)
    | (unfold validateConfig requiredCheck
       split_ifs <;> simp_all)
    | (unfold rangeCheck
       split_ifs <;> first | rfl | omega)

/-- C10 witness.  `BATCH_DELAY = 0` in an otherwise valid configuration is
rejected as missing although the range checks accept it. -/
theorem validateConfig_zero_is_missing_witness :
    validateConfig cfgZeroDelay = Except.error "Missing required config: API.BATCH_DELAY"
    ∧ rangeCheck cfgZeroDelay = Except.ok () :=
  ⟨validateConfig_zero_is_missing.2.1 cfgZeroDelay (by decide) (by decide) (by decide)
      (by decide) rfl,
   validateConfig_zero_is_missing.2.2.2.2 cfgZeroDelay (by decide) (by decide) (by decide) (by decide)⟩

end GmailSig
